import Mathlib

/-!
Verification of the interactive-shell orchestration and liveness-detection
subsystem: a shallow embedding of the command tokenizer, subcommand
classifier, session registry hook, durable session storage, output stall
detector, TTY input-wait decision table, and the blocked-subcommand gate,
with theorems checking the specification's claims against them.

Conventions of the embedding:
- JavaScript strings are Lean `String`s; iteration `for (const char of s)`
  is recursion over `s.data : List Char`.
- A JavaScript `Set<string>` is an insertion-ordered duplicate-free
  `List String`; `add`/`delete`/`new Set(array)` are modelled by
  `jsSetAdd`/`jsSetDelete`/`jsSetFromArray`.
- `Map`s and the durable per-sessionID document store are modelled as
  functions `String → Option α`; a JSON document write/read of the flat
  serialized record is modelled as storing/retrieving the record itself.
- JavaScript truthiness of a `string | null` value is `jsTruthy`
  (non-null and non-empty).
- Stateful code is explicit state passing over a `HookWorld`.
-/

/-! ## Embedded definitions -/

/-- The single-quote character (codepoint 39). -/
def squoteChar : Char := Char.ofNat 39

/-- The double-quote character (codepoint 34). -/
def dquoteChar : Char := Char.ofNat 34

/-- The single-quote character as a one-character string. -/
def sqStr : String := ⟨[squoteChar]⟩

/-- Flush the in-progress token: `if (current) tokens.push(current)`. -/
def flushTok (current : List Char) : List String :=
  if current.isEmpty then [] else [⟨current⟩]

/-- Character-level loop of `tokenizeCommand` (hook/types.ts lines 87-126).
`current` is the token being accumulated, `inQuote`/`quoteChar` the quoting
state (`none` models the TypeScript empty-string `quoteChar`), `escaped`
whether the previous character was an unconsumed backslash. -/
def tokAux : List Char → List Char → Bool → Option Char → Bool → List String
  | [], current, _, _, _ => flushTok current
  | c :: rest, current, inQuote, quoteChar, escaped =>
    if escaped then
      tokAux rest (current ++ [c]) inQuote quoteChar false
    else if c = '\\' then
      tokAux rest current inQuote quoteChar true
    else if (c = squoteChar ∨ c = dquoteChar) ∧ inQuote = false then
      tokAux rest current true (some c) false
    else if some c = quoteChar ∧ inQuote = true then
      tokAux rest current false none false
    else if c = ' ' ∧ inQuote = false then
      flushTok current ++ tokAux rest [] inQuote quoteChar false
    else
      tokAux rest (current ++ [c]) inQuote quoteChar false

/-- `tokenizeCommand` from hook/types.ts: splits a raw tmux command string
into tokens honoring quoting and backslash escaping. -/
def tokenizeCommand (cmd : String) : List String :=
  tokAux cmd.data [] false none false

/-- JavaScript `s.startsWith(pre)`, as a prefix test on the character
lists (kernel-reducible, unlike the substring-based core function). -/
def jsStartsWith (s pre : String) : Bool :=
  pre.data.isPrefixOf s.data

/-- The tmux global options that consume a following value token
(`globalOptionsWithArgs` in `findSubcommand`). -/
def globalOptionsWithArgs : List String := ["-L", "-S", "-f", "-c", "-T"]

/-- `findSubcommand` from hook/types.ts lines 128-153: skips global options
(value-taking ones consume the next token), `--` forces the next token,
first remaining non-option token is the subcommand, else empty string. -/
def findSubcommand : List String → String
  | [] => ""
  | [token] =>
    if token = "--" then ""
    else if globalOptionsWithArgs.contains token then ""
    else if jsStartsWith token "-" then ""
    else token
  | token :: next :: rest =>
    if token = "--" then next
    else if globalOptionsWithArgs.contains token then findSubcommand rest
    else if jsStartsWith token "-" then findSubcommand (next :: rest)
    else token

/-- `findFlagValue` from hook/index.ts lines 27-34: the token following the
first occurrence of `flag` that has a following token. -/
def findFlagValue : List String → String → Option String
  | [], _ => none
  | [_], _ => none
  | a :: b :: rest, flag =>
    if a = flag then some b else findFlagValue (b :: rest) flag

/-- `s.split(sep)[0]`: the prefix of the character list before the first
occurrence of `sep`. -/
def jsSplitFirst (sep : Char) : List Char → List Char
  | [] => []
  | c :: rest => if c = sep then [] else c :: jsSplitFirst sep rest

/-- `normalizeSessionName` from hook/index.ts line 23-25:
`name.split(":")[0].split(".")[0]`. -/
def normalizeSessionName (name : String) : String :=
  ⟨jsSplitFirst '.' (jsSplitFirst ':' name.data)⟩

/-- JavaScript truthiness of a `string | null`: non-null and non-empty. -/
def jsTruthy (o : Option String) : Bool :=
  !(o.getD "").isEmpty

/-- `extractSessionNameFromTokens` from hook/index.ts lines 36-56: for
`new-session` the `-s` flag value else the `-t` flag value, otherwise the
`-t` flag value, normalized; `null` when absent (or empty, by truthiness). -/
def extractSessionNameFromTokens (tokens : List String) (subCommand : String) :
    Option String :=
  if subCommand = "new-session" then
    let sFlag := findFlagValue tokens "-s"
    if jsTruthy sFlag then sFlag.map normalizeSessionName
    else
      let tFlag := findFlagValue tokens "-t"
      if jsTruthy tFlag then tFlag.map normalizeSessionName else none
  else
    let tFlag := findFlagValue tokens "-t"
    if jsTruthy tFlag then tFlag.map normalizeSessionName else none

/-- The reserved session-name prefix (hook/constants.ts). -/
def CEA_SESSION_PREFIX : String := "cea-"

/-- `isCeaSession` from hook/index.ts lines 58-60:
`sessionName?.startsWith(CEA_SESSION_PREFIX) ?? false`. -/
def isCeaSession : Option String → Bool
  | some n => jsStartsWith n CEA_SESSION_PREFIX
  | none => false

/-- Detection confidence, ordered `low < medium < high`. -/
inductive Confidence where
  | high
  | medium
  | low
deriving DecidableEq

/-- Numeric rank of a confidence level (`low < medium < high`). -/
def confidenceRank : Confidence → Nat
  | .high => 3
  | .medium => 2
  | .low => 1

/-- `signals.filter((s) => s.indicatesInputWait).length`: the number of
positive signals among the four gathered ones (stdin descriptor, wchan,
stack, syscall). -/
def countPositiveSignals (stdinMatchesTty wchanIndicatesTtyRead
    stackIndicatesTtyRead syscallIndicatesStdinRead : Bool) : Nat :=
  (if stdinMatchesTty then 1 else 0) + (if wchanIndicatesTtyRead then 1 else 0) +
    (if stackIndicatesTtyRead then 1 else 0) +
    (if syscallIndicatesStdinRead then 1 else 0)

/-- The decision table inlined in `detectLinuxProcTtyWait` (lines 215-235):
given the four boolean signals, the `(detected, confidence)` pair. -/
def determineTtyDecision (stdinMatchesTty wchanIndicatesTtyRead
    stackIndicatesTtyRead syscallIndicatesStdinRead : Bool) :
    Bool × Confidence :=
  let positiveSignals := countPositiveSignals stdinMatchesTty
    wchanIndicatesTtyRead stackIndicatesTtyRead syscallIndicatesStdinRead
  if stdinMatchesTty ∧ (wchanIndicatesTtyRead ∨ stackIndicatesTtyRead) then
    (true, .high)
  else if stdinMatchesTty ∧
      (syscallIndicatesStdinRead ∨ 2 ≤ positiveSignals) then
    (true, .medium)
  else if 1 ≤ positiveSignals then
    (true, .low)
  else
    (false, .low)

/-- Modelled from the spec wording of the decision table, as an ordered rule
list where the first rule whose condition holds decides, and a default of
not-detected/low when none matches. -/
def specTtyDecisionTable (stdinMatch wchanMatch stackMatch syscallMatch :
    Bool) : Bool × Confidence :=
  let positives := countPositiveSignals stdinMatch wchanMatch stackMatch
    syscallMatch
  let rules : List (Bool × (Bool × Confidence)) :=
    [(stdinMatch && (wchanMatch || stackMatch), (true, .high)),
      (stdinMatch && (syscallMatch || decide (2 ≤ positives)),
        (true, .medium)),
      (decide (1 ≤ positives), (true, .low))]
  ((rules.find? (fun r => r.1)).map (fun r => r.2)).getD (false, .low)

/-- `OutputStallResult` from output-stall-detector.ts. -/
structure OutputStallResult where
  isStalled : Bool
  sampleCount : Nat
  unchangedCount : Nat
  lastOutput : String
  confidence : Confidence
  detail : String
deriving DecidableEq

/-- The adjacent-pair comparison loop: for `i` in `1..<N`, count the `i`
with `samples[i] === samples[i-1]`. -/
def countUnchanged : List String → Nat
  | a :: b :: rest => (if b = a then 1 else 0) + countUnchanged (b :: rest)
  | _ => 0

/-- The pure part shared by both stall-detector variants (lines 52-82 and
101-131): classify a list of captured samples. `isStalled` compares against
`sampleCount - 1` over the integers (JavaScript numbers); the confidence
test `unchangedCount >= sampleCount / 2` uses exact JavaScript division,
i.e. `sampleCount <= 2 * unchangedCount`. -/
def stallFromSamples (sampleIntervalMs : Nat) (samples : List String) :
    OutputStallResult :=
  let sampleCount := samples.length
  let unchangedCount := countUnchanged samples
  let isStalled : Bool :=
    decide ((unchangedCount : Int) = (sampleCount : Int) - 1)
  let lastOutput := samples.getLastD ""
  let confidence : Confidence :=
    if isStalled ∧ 3 ≤ sampleCount then .high
    else if sampleCount ≤ 2 * unchangedCount then .medium
    else .low
  let detail :=
    if isStalled then
      "Output stalled: " ++ toString sampleCount ++ " samples over " ++
        toString (((sampleCount : Int) - 1) * (sampleIntervalMs : Int)) ++
        "ms showed no change"
    else
      "Output active: " ++ toString (sampleCount - unchangedCount) ++
        " of " ++ toString sampleCount ++ " samples showed changes"
  { isStalled, sampleCount, unchangedCount, lastOutput, confidence, detail }

/-- `StallDetectorOptions` from output-stall-detector.ts; absent optional
fields are `none`. -/
structure StallDetectorOptions where
  sampleCount : Option Nat
  sampleIntervalMs : Option Nat
  sessionId : String

/-- `detectOutputStall` (lines 36-83), the suspending variant, with the
pane-capture side effect abstracted as `capture i` = text of the `i`-th
capture: destructures `sampleCount = 3, sampleIntervalMs = 500` defaults,
takes the samples, and classifies them. -/
def detectOutputStallModel (capture : Nat → String)
    (options : StallDetectorOptions) : OutputStallResult :=
  let sampleCount := options.sampleCount.getD 3
  let sampleIntervalMs := options.sampleIntervalMs.getD 500
  stallFromSamples sampleIntervalMs ((List.range sampleCount).map capture)

/-- `detectOutputStallSync` (lines 85-132), the blocking variant for
synchronous callers, with the capture side effect abstracted as `capture`:
default parameters `sampleCount = 2, sampleIntervalMs = 300` (passing
`none` models omitting the argument). -/
def detectOutputStallSyncModel (capture : Nat → String)
    (sessionId : String) (sampleCount : Option Nat)
    (sampleIntervalMs : Option Nat) : OutputStallResult :=
  let n := sampleCount.getD 2
  let interval := sampleIntervalMs.getD 300
  stallFromSamples interval ((List.range n).map capture)

/-- The number of adjacent pairs of identical samples, stated as in the
spec: pairs of consecutive elements that are equal. -/
def specAdjacentUnchanged (samples : List String) : Nat :=
  ((samples.zip samples.tail).filter (fun p => p.1 = p.2)).length

/-- Modelled from the spec wording of the stall confidence rule: high if
stalled with at least three samples, else medium when the unchanged count
is at least half the sample count (exact division), else low. -/
def specStallConfidence (isStalled : Bool) (sampleCount unchangedCount :
    Nat) : Confidence :=
  if isStalled ∧ 3 ≤ sampleCount then .high
  else if (sampleCount : ℚ) / 2 ≤ (unchangedCount : ℚ) then .medium
  else .low

/-- `ShellInteractSessionState` from hook/types.ts; the `Set<string>` of
tracked tmux session names is an insertion-ordered duplicate-free list. -/
structure ShellInteractSessionState where
  sessionID : String
  tmuxSessions : List String
  updatedAt : Nat
deriving DecidableEq

/-- `SerializedShellInteractSessionState` from hook/types.ts: the shape of
the persisted JSON document, with the set flattened by `Array.from`. -/
structure SerializedShellInteractSessionState where
  sessionID : String
  tmuxSessions : List String
  updatedAt : Nat
deriving DecidableEq

/-- `Set.prototype.add`: append the element unless already present. -/
def jsSetAdd (l : List String) (x : String) : List String :=
  if x ∈ l then l else l ++ [x]

/-- `Set.prototype.delete`: remove the element (at most one occurrence is
present in a real set). -/
def jsSetDelete (l : List String) (x : String) : List String :=
  l.erase x

/-- `new Set(array)`: first occurrences, in order. -/
def jsSetFromArray (a : List String) : List String :=
  a.foldl jsSetAdd []

/-- The durable per-sessionID document store (the fixed storage directory),
as a map from sessionID to the parsed JSON document of the session file;
`none` is an absent (or unreadable) file. -/
def SessionStorage : Type := String → Option SerializedShellInteractSessionState

/-- A map update, modelling both `Map.prototype.set` and a file write. -/
def mapSet {α : Type} (m : String → Option α) (k : String) (v : α) :
    String → Option α :=
  fun k2 => if k2 = k then some v else m k2

/-- A map removal, modelling `Map.prototype.delete` and a file unlink. -/
def mapRemove {α : Type} (m : String → Option α) (k : String) :
    String → Option α :=
  fun k2 => if k2 = k then none else m k2

/-- `loadShellInteractSessionState` (storage.ts lines 25-46): read the
document for `sessionID` and rebuild the in-memory state, the session set
reconstructed with `new Set(...)`; an absent document is `none`. -/
def loadShellInteractSessionState (storage : SessionStorage)
    (sessionID : String) : Option ShellInteractSessionState :=
  (storage sessionID).map fun serialized =>
    { sessionID := serialized.sessionID,
      tmuxSessions := jsSetFromArray serialized.tmuxSessions,
      updatedAt := serialized.updatedAt }

/-- `saveShellInteractSessionState` (storage.ts lines 48-61): serialize the
state (set flattened with `Array.from`) and fully rewrite the document
keyed by the state sessionID. -/
def saveShellInteractSessionState (storage : SessionStorage)
    (state : ShellInteractSessionState) : SessionStorage :=
  mapSet storage state.sessionID
    { sessionID := state.sessionID,
      tmuxSessions := state.tmuxSessions,
      updatedAt := state.updatedAt }

/-- `clearShellInteractSessionState` (storage.ts lines 63-73): delete the
document. -/
def clearShellInteractSessionState (storage : SessionStorage)
    (sessionID : String) : SessionStorage :=
  mapRemove storage sessionID

/-- The mutable module state of hook/index.ts: the in-memory
`sessionStates` map and the durable store behind it. -/
structure HookWorld where
  sessionStates : String → Option ShellInteractSessionState
  storage : SessionStorage

/-- `getOrCreateState` (hook/index.ts lines 62-76): in-memory state if
cached, else the persisted state, else a fresh empty state stamped `now`
(`Date.now()`); on a cache miss the obtained state is cached. -/
def getOrCreateState (w : HookWorld) (sessionID : String) (now : Nat) :
    ShellInteractSessionState × HookWorld :=
  match w.sessionStates sessionID with
  | some existing => (existing, w)
  | none =>
    let state :=
      (loadShellInteractSessionState w.storage sessionID).getD
        { sessionID := sessionID, tmuxSessions := [], updatedAt := now }
    (state, { w with sessionStates := mapSet w.sessionStates sessionID state })

/-- The registry mutation of hook/index.ts lines 124-133: the new tracked
set and the `stateChanged` flag. -/
def applySessionMutation (sessions : List String) (subCommand : String)
    (sessionName : Option String) : List String × Bool :=
  if subCommand = "new-session" ∧ isCeaSession sessionName = true then
    (jsSetAdd sessions (sessionName.getD ""), true)
  else if subCommand = "kill-session" ∧ isCeaSession sessionName = true then
    (jsSetDelete sessions (sessionName.getD ""), true)
  else if subCommand = "kill-server" then
    ([], true)
  else
    (sessions, false)

/-- `buildSessionReminderMessage` (hook/constants.ts lines 8-26): empty for
an empty tracked set, else the active-session reminder, with follow-up
guidance appended for a newly created session. -/
def buildSessionReminderMessage (sessions : List String)
    (newlyCreated : Option String) : String :=
  if sessions.isEmpty then ""
  else
    let message := "\n\n[System Reminder] Active cea-* tmux sessions: " ++
      String.intercalate ", " sessions
    match newlyCreated with
    | some n =>
      message ++ "\n[Action Required] Background process started in " ++
        sqStr ++ n ++ sqStr ++ ". Before reporting completion:\n" ++
        "  1. Wait: shell_execute sleep 2-5\n" ++
        "  2. Verify output: shell_execute tmux capture-pane -t " ++ n ++
        " -p\n" ++
        "  3. For servers: test the endpoint (e.g., curl localhost:PORT)"
    | none => message

/-- `ToolExecuteResult` from hook/index.ts; `sessionReminder` is `none`
when the TypeScript field is `undefined`. -/
structure ToolExecuteResult where
  output : String
  sessionReminder : Option String
deriving DecidableEq

/-- `shellInteractHook` (hook/index.ts lines 104-154) as a function of the
module state `w` and the clock `now`: error outputs pass through
untouched; otherwise the command is tokenized and classified, the tracked
set mutated and (when changed) persisted with a fresh `updatedAt`, and
lifecycle operations get the post-mutation reminder appended to the output
(JavaScript truthiness drops an empty reminder string). -/
def shellInteractHook (w : HookWorld) (now : Nat) (sessionID : String)
    (tmuxCommand : String) (toolOutput : String) :
    ToolExecuteResult × HookWorld :=
  if jsStartsWith toolOutput "Error:" then
    ({ output := toolOutput, sessionReminder := none }, w)
  else
    let tokens := tokenizeCommand tmuxCommand
    let subCommand := findSubcommand tokens
    let stateAndWorld := getOrCreateState w sessionID now
    let state0 := stateAndWorld.1
    let w1 := stateAndWorld.2
    let isNewSession := subCommand = "new-session"
    let sessionName := extractSessionNameFromTokens tokens subCommand
    let mutated := applySessionMutation state0.tmuxSessions subCommand
      sessionName
    let stateChanged := mutated.2
    let state1 : ShellInteractSessionState :=
      { state0 with
        tmuxSessions := mutated.1,
        updatedAt := if stateChanged then now else state0.updatedAt }
    let w2 : HookWorld :=
      { sessionStates := mapSet w1.sessionStates sessionID state1,
        storage :=
          if stateChanged then saveShellInteractSessionState w1.storage state1
          else w1.storage }
    let isSessionOperation := subCommand = "new-session" ∨
      subCommand = "kill-session" ∨ subCommand = "kill-server"
    let sessionReminder : Option String :=
      if isSessionOperation then
        some (buildSessionReminderMessage state1.tmuxSessions
          (if isNewSession ∧ isCeaSession sessionName = true then sessionName
            else none))
      else none
    let output :=
      match sessionReminder with
      | some r => if r = "" then toolOutput else toolOutput ++ r
      | none => toolOutput
    ({ output := output, sessionReminder := sessionReminder }, w2)

/-- Modelled from the spec wording: the value following the first
occurrence of `flag` in the token list. -/
def specFlagValue (tokens : List String) (flag : String) : Option String :=
  ((tokens.zip tokens.tail).find? (fun p => decide (p.1 = flag))).map
    (fun p => p.2)

/-- Modelled from the spec wording: the target truncated at the first
`:` or `.` separator. -/
def specNormalizeTarget (s : String) : String :=
  ⟨s.data.takeWhile (fun c => decide (¬(c = ':' ∨ c = '.')))⟩

/-- Modelled from the spec wording: the resolved target name — for a
`new-session` command the `-s` flag value, else the `-t` flag value;
for other commands the `-t` target — truncated at the first separator. -/
def specResolvedSessionName (tokens : List String) (subCommand : String) :
    Option String :=
  (if subCommand = "new-session" then
      (specFlagValue tokens "-s").orElse (fun _ => specFlagValue tokens "-t")
    else specFlagValue tokens "-t").map specNormalizeTarget

/-- Modelled from the spec wording of the registry update: `new-session`
with a resolved `cea-` name adds it, `kill-session` with a resolved `cea-`
name removes it, `kill-server` clears the set, anything else leaves the
set unchanged. -/
def specUpdateTrackedSessions (tracked : List String) (rawCommand : String) :
    List String :=
  let tokens := tokenizeCommand rawCommand
  let sub := findSubcommand tokens
  let name := specResolvedSessionName tokens sub
  if sub = "new-session" ∧ isCeaSession name = true then
    jsSetAdd tracked (name.getD "")
  else if sub = "kill-session" ∧ isCeaSession name = true then
    jsSetDelete tracked (name.getD "")
  else if sub = "kill-server" then []
  else tracked

/-- The subcommand the hook classifies for a raw command (tokenize then
classify). -/
def hookSubcommand (cmd : String) : String :=
  findSubcommand (tokenizeCommand cmd)

/-- The session name the hook resolves for a raw command. -/
def hookSessionName (cmd : String) : Option String :=
  extractSessionNameFromTokens (tokenizeCommand cmd) (hookSubcommand cmd)

/-- A lifecycle operation: session creation, session kill, or server kill. -/
def IsLifecycle (sub : String) : Prop :=
  sub = "new-session" ∨ sub = "kill-session" ∨ sub = "kill-server"

/-- The post-mutation session state the hook holds after classifying and
applying a non-error command (the `state` object after lines 124-138). -/
def hookPostState (w : HookWorld) (now : Nat)
    (sessionID tmuxCommand : String) : ShellInteractSessionState :=
  let swp := getOrCreateState w sessionID now
  let mutated := applySessionMutation swp.1.tmuxSessions
    (hookSubcommand tmuxCommand) (hookSessionName tmuxCommand)
  { swp.1 with
    tmuxSessions := mutated.1,
    updatedAt := if mutated.2 then now else swp.1.updatedAt }

/-- The module state after the hook ran a non-error command: the
post-mutation state is cached in memory, and persisted when the tracked
set changed. -/
def hookPostWorld (w : HookWorld) (now : Nat)
    (sessionID tmuxCommand : String) : HookWorld :=
  let swp := getOrCreateState w sessionID now
  { sessionStates := mapSet swp.2.sessionStates sessionID
      (hookPostState w now sessionID tmuxCommand),
    storage :=
      if (applySessionMutation swp.1.tmuxSessions
          (hookSubcommand tmuxCommand) (hookSessionName tmuxCommand)).2 then
        saveShellInteractSessionState swp.2.storage
          (hookPostState w now sessionID tmuxCommand)
      else swp.2.storage }

/-- The reminder the hook computes (after the mutation) for a non-error
command: present exactly on lifecycle operations, built from the
post-mutation tracked set, with the newly created `cea-` name passed
through on creation. -/
def hookReminder (w : HookWorld) (now : Nat)
    (sessionID tmuxCommand : String) : Option String :=
  if hookSubcommand tmuxCommand = "new-session" ∨
      hookSubcommand tmuxCommand = "kill-session" ∨
      hookSubcommand tmuxCommand = "kill-server" then
    some (buildSessionReminderMessage
      (hookPostState w now sessionID tmuxCommand).tmuxSessions
      (if hookSubcommand tmuxCommand = "new-session" ∧
          isCeaSession (hookSessionName tmuxCommand) = true then
        hookSessionName tmuxCommand
      else none))
  else none

/-- `ShellInteractResult` of the shell-interact tool. -/
structure ShellInteractResult where
  success : Bool
  output : String
deriving DecidableEq

/-- What `executeTmuxCommand` decides before any process is spawned:
either it resolves a failure result at once, or it hands the full command
line to the multiplexer process spawn. -/
inductive TmuxDispatch where
  | rejected : ShellInteractResult → TmuxDispatch
  | spawn : String → TmuxDispatch
deriving DecidableEq

/-- `BLOCKED_TMUX_SUBCOMMANDS` from shell-interact/constants.ts. -/
def BLOCKED_TMUX_SUBCOMMANDS : List String :=
  ["capture-pane", "capturep", "save-buffer", "saveb", "show-buffer",
    "showb", "pipe-pane", "pipep"]

/-- JavaScript `s.toLowerCase()` on the ASCII command names involved. -/
def jsToLowerCase (s : String) : String :=
  ⟨s.data.map Char.toLower⟩

/-- The failure result the tool returns for a blocked subcommand whose
first token is `head`. -/
def blockedResult (head : String) : ShellInteractResult :=
  { success := false,
    output := "Error: " ++ sqStr ++ head ++ sqStr ++
      " is blocked. Use shell_execute instead for capturing/printing" ++
      " terminal output." }

/-- The pre-spawn phase of `executeTmuxCommand` (shell-interact tool, lines
13-36): empty token lists and blocked first subcommands resolve failure
results immediately; anything else reaches the multiplexer spawn with the
full command line. -/
def executeTmuxCommandGate (cachedTmuxPath : Option String)
    (tmuxCommand : String) : TmuxDispatch :=
  let tmuxPath := cachedTmuxPath.getD "tmux"
  let parts := tokenizeCommand tmuxCommand
  if parts.isEmpty then
    .rejected { success := false, output := "Error: Empty tmux command" }
  else
    let subcommand := jsToLowerCase (parts.headD "")
    if BLOCKED_TMUX_SUBCOMMANDS.contains subcommand then
      .rejected (blockedResult (parts.headD ""))
    else
      .spawn (tmuxPath ++ " " ++ tmuxCommand)

/-- Modelled from the spec wording of the tokenizer rules, as a recursive
reader: a backslash escapes the next character (dropped from output); an
unescaped quote matching the opening one closes the group; outside quotes
a quote opens a group and a space ends the current token; everything else
joins the current token; the remainder of an unterminated quote becomes
the final token. -/
def specTokAux : List Char → List Char → Option Char → List String
  | [], current, _ => flushTok current
  | c :: rest, current, mode =>
    if c = '\\' then
      match rest with
      | [] => flushTok current
      | d :: rest2 => specTokAux rest2 (current ++ [d]) mode
    else
      match mode with
      | some q =>
        if c = q then specTokAux rest current none
        else specTokAux rest (current ++ [c]) (some q)
      | none =>
        if c = squoteChar ∨ c = dquoteChar then
          specTokAux rest current (some c)
        else if c = ' ' then flushTok current ++ specTokAux rest [] none
        else specTokAux rest (current ++ [c]) none

/-- The spec-side tokenizer. -/
def specTokenize (cmd : String) : List String :=
  specTokAux cmd.data [] none

/-! ## Theorems -/

section SanityChecks

example : tokenizeCommand "new-session -d -s cea-build" =
    ["new-session", "-d", "-s", "cea-build"] := by decide

example :
    tokenizeCommand
        ("new-session -d -s cea-a \\; send-keys -t cea-a " ++ sqStr ++
          "echo hi" ++ sqStr ++ " Enter") =
      ["new-session", "-d", "-s", "cea-a", ";", "send-keys", "-t", "cea-a",
        "echo hi", "Enter"] := by decide

example : findSubcommand ["-L", "sock", "new-session", "-d"] = "new-session" := by
  decide

example : findSubcommand ["--", "kill-session"] = "kill-session" := by decide

example : normalizeSessionName "cea-x:0.1" = "cea-x" := by decide

end SanityChecks

theorem countUnchanged_eq_spec (samples : List String) :
    countUnchanged samples = specAdjacentUnchanged samples := by
  induction samples with
  | nil => rfl
  | cons a rest ih =>
    cases rest with
    | nil => rfl
    | cons b rest2 =>
      have step : specAdjacentUnchanged (a :: b :: rest2) =
          (if a = b then 1 else 0) + specAdjacentUnchanged (b :: rest2) := by
        show (((a, b) :: (b :: rest2).zip rest2).filter
            (fun p => decide (p.1 = p.2))).length = _
        rw [List.filter_cons]
        by_cases h : a = b
        · simp [h, specAdjacentUnchanged, Nat.add_comm]
        · simp [h, specAdjacentUnchanged]
      rw [step]
      show (if b = a then 1 else 0) + countUnchanged (b :: rest2) = _
      rw [ih]
      by_cases h : a = b
      · subst h; rfl
      · have h2 : ¬b = a := fun hba => h hba.symm
        rw [if_neg h, if_neg h2]

theorem half_le_iff (n uc : Nat) :
    ((n : ℚ) / 2 ≤ (uc : ℚ)) ↔ n ≤ 2 * uc := by
  rw [div_le_iff₀ (by norm_num : (0 : ℚ) < 2)]
  norm_cast
  omega

theorem specStallConfidence_eq (st : Bool) (n uc : Nat) :
    (if st = true ∧ 3 ≤ n then Confidence.high
      else if n ≤ 2 * uc then Confidence.medium else Confidence.low) =
      specStallConfidence st n uc := by
  rw [specStallConfidence]
  by_cases h1 : st = true ∧ 3 ≤ n
  · rw [if_pos h1, if_pos h1]
  · rw [if_neg h1, if_neg h1]
    by_cases h2 : n ≤ 2 * uc
    · rw [if_pos h2, if_pos ((half_le_iff n uc).mpr h2)]
    · rw [if_neg h2, if_neg (fun hq => h2 ((half_le_iff n uc).mp hq))]

/-- C3: for every sample list taken by the output stall detector,
`unchangedCount` is the number of adjacent identical pairs, `isStalled`
holds exactly when `unchangedCount = N - 1`, the confidence follows the
high/medium/low rule with the exact `N/2` threshold, `lastOutput` is the
final raw sample, and the three concrete sample lists of the claim behave
as stated. -/
theorem stall_metrics_spec (sampleIntervalMs : Nat) (samples : List String) :
    ((stallFromSamples sampleIntervalMs samples).unchangedCount =
        specAdjacentUnchanged samples ∧
      ((stallFromSamples sampleIntervalMs samples).isStalled = true ↔
        ((stallFromSamples sampleIntervalMs samples).unchangedCount : Int) =
          (samples.length : Int) - 1) ∧
      (stallFromSamples sampleIntervalMs samples).confidence =
        specStallConfidence (stallFromSamples sampleIntervalMs samples).isStalled
          samples.length (stallFromSamples sampleIntervalMs samples).unchangedCount ∧
      (stallFromSamples sampleIntervalMs samples).lastOutput =
        samples.getLastD "") ∧
    (stallFromSamples sampleIntervalMs ["A", "A", "A"]).isStalled = true ∧
    (stallFromSamples sampleIntervalMs ["A", "A", "A"]).confidence = .high ∧
    (stallFromSamples sampleIntervalMs ["A", "B", "C"]).isStalled = false ∧
    (stallFromSamples sampleIntervalMs ["A", "B", "C"]).unchangedCount = 0 ∧
    (stallFromSamples sampleIntervalMs ["A", "A", "B"]).isStalled = false ∧
    (stallFromSamples sampleIntervalMs ["A", "A", "B"]).unchangedCount = 1 := by
  refine ⟨⟨?_, ?_, ?_, ?_⟩, ?_, ?_, ?_, ?_, ?_, ?_⟩
  · exact countUnchanged_eq_spec samples
  · constructor
    · intro h
      exact of_decide_eq_true h
    · intro h
      exact decide_eq_true h
  · exact specStallConfidence_eq _ _ _
  · rfl
  · rfl
  · rfl
  · rfl
  · rfl
  · rfl
  · rfl

/-- C2: for every combination of the four boolean signals, the decision
inlined in `detectLinuxProcTtyWait` equals the first-match evaluation of
the spec decision table (high on stdin plus wchan/stack corroboration,
medium on stdin plus syscall or two positives, low on any positive,
otherwise not detected). -/
theorem tty_decision_table_matches_spec
    (stdinMatch wchanMatch stackMatch syscallMatch : Bool) :
    determineTtyDecision stdinMatch wchanMatch stackMatch syscallMatch =
      specTtyDecisionTable stdinMatch wchanMatch stackMatch syscallMatch := by
  revert stdinMatch wchanMatch stackMatch syscallMatch
  decide

/-- C9: the TTY detector confidence is monotonic in corroborating-signal
strength: adding positive signals never lowers the confidence rank, and a
detected vector stays detected. -/
theorem tty_confidence_monotone
    (s₁ w₁ k₁ y₁ s₂ w₂ k₂ y₂ : Bool) (hs : s₁ ≤ s₂) (hw : w₁ ≤ w₂)
    (hk : k₁ ≤ k₂) (hy : y₁ ≤ y₂) :
    confidenceRank (determineTtyDecision s₁ w₁ k₁ y₁).2 ≤
        confidenceRank (determineTtyDecision s₂ w₂ k₂ y₂).2 ∧
      ((determineTtyDecision s₁ w₁ k₁ y₁).1 = true →
        (determineTtyDecision s₂ w₂ k₂ y₂).1 = true) := by
  constructor
  · revert s₁ w₁ k₁ y₁ s₂ w₂ k₂ y₂ hs hw hk hy
    decide
  · revert s₁ w₁ k₁ y₁ s₂ w₂ k₂ y₂ hs hw hk hy
    decide

/-- Witness for `tty_confidence_monotone`: a strictly corroborated second
vector keeps detection and raises the rank. -/
theorem tty_confidence_monotone_witness :
    (false ≤ true) ∧ (false ≤ false) ∧
      (confidenceRank (determineTtyDecision false false false true).2 ≤
          confidenceRank (determineTtyDecision true false false true).2 ∧
        ((determineTtyDecision false false false true).1 = true →
          (determineTtyDecision true false false true).1 = true)) :=
  ⟨by decide, by decide,
    tty_confidence_monotone false false false true true false false true
      (by decide) (by decide) (by decide) (by decide)⟩

/-- C6 counterexample: called with no optional arguments, the blocking
variant samples twice at 300ms, not three times at 500ms as the claim
states for both variants. -/
theorem stall_defaults_counterexample :
    (detectOutputStallSyncModel (fun _ => "A") "cea-x" none none).sampleCount
        = 2 ∧
      (detectOutputStallSyncModel (fun _ => "A") "cea-x" none none).detail =
        "Output stalled: 2 samples over 300ms showed no change" ∧
      detectOutputStallSyncModel (fun _ => "A") "cea-x" none none ≠
        stallFromSamples 500 ((List.range 3).map (fun _ => "A")) := by
  refine ⟨rfl, by decide, by decide⟩

/-- C6 amended: when the caller supplies no sample count and no interval,
the suspending variant `detectOutputStall` behaves as three samples at
500ms, while the blocking variant `detectOutputStallSync` behaves as two
samples at 300ms. -/
theorem stall_defaults_amended (capture : Nat → String) (sessionId : String) :
    detectOutputStallModel capture
        { sampleCount := none, sampleIntervalMs := none,
          sessionId := sessionId } =
        stallFromSamples 500 ((List.range 3).map capture) ∧
      detectOutputStallSyncModel capture sessionId none none =
        stallFromSamples 300 ((List.range 2).map capture) :=
  ⟨rfl, rfl⟩

theorem mk_ne_empty (current : List Char) (h : current ≠ []) :
    String.mk current ≠ "" := by
  intro hcontra
  exact h (congrArg String.data hcontra)

theorem not_mem_flushTok (current : List Char) : "" ∉ flushTok current := by
  rw [flushTok]
  by_cases h : current.isEmpty
  · simp [h]
  · rw [if_neg h]
    intro hmem
    rcases List.mem_singleton.mp hmem with heq
    exact mk_ne_empty current (by simpa using h) heq.symm

theorem not_mem_tokAux (chars : List Char) :
    ∀ current inQuote quoteChar escaped,
      "" ∉ tokAux chars current inQuote quoteChar escaped := by
  induction chars with
  | nil =>
    intro current _ _ _
    exact not_mem_flushTok current
  | cons c rest ih =>
    intro current inQuote quoteChar escaped
    rw [tokAux]
    split_ifs with h1 h2 h3 h4 h5
    · exact ih _ _ _ _
    · exact ih _ _ _ _
    · exact ih _ _ _ _
    · exact ih _ _ _ _
    · intro hmem
      rcases List.mem_append.mp hmem with hl | hr
      · exact not_mem_flushTok current hl
      · exact ih _ _ _ _ hr
    · exact ih _ _ _ _

theorem tokenize_no_empty (cmd : String) : "" ∉ tokenizeCommand cmd :=
  not_mem_tokAux cmd.data [] false none false

theorem findFlagValue_eq_spec (tokens : List String) (flag : String) :
    findFlagValue tokens flag = specFlagValue tokens flag := by
  induction tokens with
  | nil => rfl
  | cons a rest ih =>
    cases rest with
    | nil => rfl
    | cons b rest2 =>
      by_cases h : a = flag
      · subst h
        simp [findFlagValue, specFlagValue, List.find?_cons]
      · simpa [findFlagValue, specFlagValue, List.find?_cons, h] using ih

theorem findFlagValue_mem (tokens : List String) (flag v : String)
    (h : findFlagValue tokens flag = some v) : v ∈ tokens := by
  induction tokens with
  | nil => exact absurd h (by simp [findFlagValue])
  | cons a rest ih =>
    cases rest with
    | nil => exact absurd h (by simp [findFlagValue])
    | cons b rest2 =>
      rw [show findFlagValue (a :: b :: rest2) flag =
          (if a = flag then some b else findFlagValue (b :: rest2) flag)
          from rfl] at h
      by_cases ha : a = flag
      · rw [if_pos ha] at h
        simp [Option.some_inj.mp h]
      · rw [if_neg ha] at h
        exact List.mem_cons_of_mem a (ih h)

theorem jsSplitFirst_jsSplitFirst (sep1 sep2 : Char) (l : List Char) :
    jsSplitFirst sep2 (jsSplitFirst sep1 l) =
      l.takeWhile (fun c => decide (¬(c = sep1 ∨ c = sep2))) := by
  induction l with
  | nil => rfl
  | cons c rest ih =>
    rw [jsSplitFirst]
    by_cases h1 : c = sep1
    · rw [if_pos h1, List.takeWhile_cons]
      simp [jsSplitFirst, h1]
    · rw [if_neg h1, jsSplitFirst]
      by_cases h2 : c = sep2
      · rw [if_pos h2, List.takeWhile_cons]
        simp [h1, h2]
      · rw [if_neg h2, List.takeWhile_cons]
        simp [h1, h2, ih]

theorem normalize_eq_spec (s : String) :
    normalizeSessionName s = specNormalizeTarget s := by
  rw [normalizeSessionName, specNormalizeTarget,
    jsSplitFirst_jsSplitFirst ':' '.' s.data]

theorem jsTruthy_of_mem (tokens : List String) (flag v : String)
    (hne : "" ∉ tokens) (h : findFlagValue tokens flag = some v) :
    jsTruthy (some v) = true := by
  have hv : v ∈ tokens := findFlagValue_mem tokens flag v h
  have hv0 : v ≠ "" := fun hv0 => hne (hv0 ▸ hv)
  rw [jsTruthy]
  simp only [Option.getD_some]
  cases hv2 : v.isEmpty
  · rfl
  · exact absurd ((String.isEmpty_iff v).mp hv2) hv0

theorem extract_eq_spec (tokens : List String) (subCommand : String)
    (hne : "" ∉ tokens) :
    extractSessionNameFromTokens tokens subCommand =
      specResolvedSessionName tokens subCommand := by
  simp only [extractSessionNameFromTokens, specResolvedSessionName,
    ← findFlagValue_eq_spec]
  have hnone : jsTruthy (none : Option String) = false := rfl
  by_cases hsub : subCommand = "new-session"
  · simp only [if_pos hsub]
    cases hs : findFlagValue tokens "-s" with
    | some v =>
      have ht := jsTruthy_of_mem tokens "-s" v hne hs
      simp [hs, ht, Option.orElse, normalize_eq_spec]
    | none =>
      cases ht : findFlagValue tokens "-t" with
      | some v =>
        have h2 := jsTruthy_of_mem tokens "-t" v hne ht
        simp [hs, ht, h2, hnone, Option.orElse, normalize_eq_spec]
      | none =>
        simp [hs, ht, hnone, Option.orElse]
  · simp only [if_neg hsub]
    cases ht : findFlagValue tokens "-t" with
    | some v =>
      have h2 := jsTruthy_of_mem tokens "-t" v hne ht
      simp [ht, h2, normalize_eq_spec]
    | none =>
      simp [ht, hnone]

theorem applySessionMutation_eq_spec (tracked : List String) (cmd : String) :
    (applySessionMutation tracked (findSubcommand (tokenizeCommand cmd))
        (extractSessionNameFromTokens (tokenizeCommand cmd)
          (findSubcommand (tokenizeCommand cmd)))).1 =
      specUpdateTrackedSessions tracked cmd := by
  rw [applySessionMutation, specUpdateTrackedSessions,
    extract_eq_spec _ _ (tokenize_no_empty cmd)]
  split_ifs <;> rfl

theorem mem_jsSetAdd_self (l : List String) (a : String) :
    a ∈ jsSetAdd l a := by
  rw [jsSetAdd]
  by_cases h : a ∈ l
  · rwa [if_pos h]
  · rw [if_neg h]
    exact List.mem_append_right _ (List.mem_singleton_self a)

/-- Evaluation of the hook on a non-error output: one equation exposing the
post-mutation state, the post-write world and the reminder. -/
theorem shellInteractHook_eq (w : HookWorld) (now : Nat)
    (sessionID tmuxCommand toolOutput : String)
    (herr : jsStartsWith toolOutput "Error:" = false) :
    shellInteractHook w now sessionID tmuxCommand toolOutput =
      ({ output :=
           match hookReminder w now sessionID tmuxCommand with
           | some r => if r = "" then toolOutput else toolOutput ++ r
           | none => toolOutput,
         sessionReminder := hookReminder w now sessionID tmuxCommand },
        hookPostWorld w now sessionID tmuxCommand) := by
  rw [shellInteractHook, if_neg (by simp [herr])]
  rfl

/-- C10: a tool output that starts with `Error:` is returned unchanged with
no session reminder, and the hook leaves the whole module state — the
in-memory map and the durable storage — untouched. -/
theorem error_output_passthrough (w : HookWorld) (now : Nat)
    (sessionID tmuxCommand toolOutput : String)
    (herr : jsStartsWith toolOutput "Error:" = true) :
    shellInteractHook w now sessionID tmuxCommand toolOutput =
      ({ output := toolOutput, sessionReminder := none }, w) := by
  rw [shellInteractHook, if_pos herr]

/-- Witness for `error_output_passthrough` at a concrete failed command. -/
theorem error_output_passthrough_witness :
    jsStartsWith "Error: no server running" "Error:" = true ∧
      shellInteractHook
          { sessionStates := fun _ => none, storage := fun _ => none } 7
          "conv1" "kill-session -t cea-a" "Error: no server running" =
        ({ output := "Error: no server running", sessionReminder := none },
          { sessionStates := fun _ => none, storage := fun _ => none }) :=
  ⟨by decide,
    error_output_passthrough
      { sessionStates := fun _ => none, storage := fun _ => none } 7 "conv1"
      "kill-session -t cea-a" "Error: no server running" (by decide)⟩

/-- C1: on a non-error output the tracked-session set recorded for the
conversation after the hook runs is exactly the spec-side update (add a
resolved `cea-` name on `new-session`, remove it on `kill-session`, clear
on `kill-server`, else unchanged) of the set the hook found, and the
claim instances hold: creating `cea-build` tracks it, killing it empties
the set, `kill-server` clears `cea-a`/`cea-b`, and a `cea-x:0.1` target is
tracked as `cea-x`. -/
theorem tracked_session_update_matches_spec (w : HookWorld) (now : Nat)
    (sessionID tmuxCommand toolOutput : String)
    (herr : jsStartsWith toolOutput "Error:" = false) :
    ((shellInteractHook w now sessionID tmuxCommand toolOutput).2.sessionStates
          sessionID).map (fun st => st.tmuxSessions) =
        some (specUpdateTrackedSessions
          ((getOrCreateState w sessionID now).1.tmuxSessions) tmuxCommand) ∧
      specUpdateTrackedSessions [] "new-session -d -s cea-build" =
        ["cea-build"] ∧
      specUpdateTrackedSessions ["cea-build"] "kill-session -t cea-build" =
        [] ∧
      specUpdateTrackedSessions ["cea-a", "cea-b"] "kill-server" = [] ∧
      specUpdateTrackedSessions [] "new-session -d -s cea-x:0.1" =
        ["cea-x"] := by
  refine ⟨?_, by decide, by decide, by decide, by decide⟩
  rw [shellInteractHook_eq w now sessionID tmuxCommand toolOutput herr]
  simp only [hookPostWorld, mapSet, if_pos rfl, Option.map_some]
  exact congrArg some (applySessionMutation_eq_spec _ _)

/-- Witness for `tracked_session_update_matches_spec`: a fresh conversation
creating `cea-build` over an empty world. -/
theorem tracked_session_update_matches_spec_witness :
    jsStartsWith "ok" "Error:" = false ∧
      (((shellInteractHook
              { sessionStates := fun _ => none, storage := fun _ => none } 3
              "conv1" "new-session -d -s cea-build" "ok").2.sessionStates
            "conv1").map (fun st => st.tmuxSessions) =
          some (specUpdateTrackedSessions
            ((getOrCreateState
                { sessionStates := fun _ => none, storage := fun _ => none }
                "conv1" 3).1.tmuxSessions) "new-session -d -s cea-build") ∧
        specUpdateTrackedSessions [] "new-session -d -s cea-build" =
          ["cea-build"] ∧
        specUpdateTrackedSessions ["cea-build"] "kill-session -t cea-build" =
          [] ∧
        specUpdateTrackedSessions ["cea-a", "cea-b"] "kill-server" = [] ∧
        specUpdateTrackedSessions [] "new-session -d -s cea-x:0.1" =
          ["cea-x"]) :=
  ⟨by decide,
    tracked_session_update_matches_spec
      { sessionStates := fun _ => none, storage := fun _ => none } 3 "conv1"
      "new-session -d -s cea-build" "ok" (by decide)⟩

/-- C4: on a non-error output, a lifecycle command returns the tool output
with the reminder built from the tracked set as it stands in the
post-mutation world (so a newly created prefixed session is in the set its
own reminder lists, a killed one is not, and a creation carries the
follow-up guidance for the new name), with any persistence write already
reflected in the returned world; a non-lifecycle command returns the
output unchanged with no reminder. -/
theorem lifecycle_reminder_annotation (w : HookWorld) (now : Nat)
    (sessionID tmuxCommand toolOutput : String)
    (herr : jsStartsWith toolOutput "Error:" = false) :
    (IsLifecycle (hookSubcommand tmuxCommand) →
      ∃ st,
        (shellInteractHook w now sessionID tmuxCommand
              toolOutput).2.sessionStates sessionID = some st ∧
        (shellInteractHook w now sessionID tmuxCommand toolOutput).1.output =
          toolOutput ++ buildSessionReminderMessage st.tmuxSessions
            (if hookSubcommand tmuxCommand = "new-session" ∧
                isCeaSession (hookSessionName tmuxCommand) = true then
              hookSessionName tmuxCommand
            else none) ∧
        (hookSubcommand tmuxCommand = "new-session" ∧
            isCeaSession (hookSessionName tmuxCommand) = true →
          (hookSessionName tmuxCommand).getD "" ∈ st.tmuxSessions) ∧
        ((getOrCreateState w sessionID now).1.tmuxSessions.Nodup →
          hookSubcommand tmuxCommand = "kill-session" ∧
            isCeaSession (hookSessionName tmuxCommand) = true →
          (hookSessionName tmuxCommand).getD "" ∉ st.tmuxSessions) ∧
        ((applySessionMutation
              (getOrCreateState w sessionID now).1.tmuxSessions
              (hookSubcommand tmuxCommand)
              (hookSessionName tmuxCommand)).2 = true →
          (shellInteractHook w now sessionID tmuxCommand
                toolOutput).2.storage st.sessionID =
            some { sessionID := st.sessionID,
                   tmuxSessions := st.tmuxSessions,
                   updatedAt := st.updatedAt })) ∧
    (¬IsLifecycle (hookSubcommand tmuxCommand) →
      (shellInteractHook w now sessionID tmuxCommand toolOutput).1.output =
          toolOutput ∧
        (shellInteractHook w now sessionID tmuxCommand
            toolOutput).1.sessionReminder = none) := by
  rw [shellInteractHook_eq w now sessionID tmuxCommand toolOutput herr]
  constructor
  · intro hop
    refine ⟨hookPostState w now sessionID tmuxCommand, ?_, ?_, ?_, ?_, ?_⟩
    · show (hookPostWorld w now sessionID tmuxCommand).sessionStates
          sessionID = _
      simp [hookPostWorld, mapSet]
    · show (match hookReminder w now sessionID tmuxCommand with
        | some r => if r = "" then toolOutput else toolOutput ++ r
        | none => toolOutput) = _
      have hop2 : hookSubcommand tmuxCommand = "new-session" ∨
          hookSubcommand tmuxCommand = "kill-session" ∨
          hookSubcommand tmuxCommand = "kill-server" := hop
      rw [hookReminder, if_pos hop2]
      dsimp only
      by_cases hr : buildSessionReminderMessage
          (hookPostState w now sessionID tmuxCommand).tmuxSessions
          (if hookSubcommand tmuxCommand = "new-session" ∧
              isCeaSession (hookSessionName tmuxCommand) = true then
            hookSessionName tmuxCommand
          else none) = ""
      · rw [if_pos hr, hr, String.append_empty]
      · rw [if_neg hr]
    · intro hnew
      show (hookSessionName tmuxCommand).getD "" ∈
        (applySessionMutation (getOrCreateState w sessionID now).1.tmuxSessions
          (hookSubcommand tmuxCommand) (hookSessionName tmuxCommand)).1
      rw [applySessionMutation, if_pos hnew]
      exact mem_jsSetAdd_self _ _
    · intro hnd hkill
      show (hookSessionName tmuxCommand).getD "" ∉
        (applySessionMutation (getOrCreateState w sessionID now).1.tmuxSessions
          (hookSubcommand tmuxCommand) (hookSessionName tmuxCommand)).1
      have hne : ¬(hookSubcommand tmuxCommand = "new-session" ∧
          isCeaSession (hookSessionName tmuxCommand) = true) := by
        intro hcontra
        rw [hkill.1] at hcontra
        exact absurd hcontra.1 (by decide)
      rw [applySessionMutation, if_neg hne, if_pos hkill]
      exact hnd.not_mem_erase
    · intro hch
      show (hookPostWorld w now sessionID tmuxCommand).storage
          (hookPostState w now sessionID tmuxCommand).sessionID = _
      rw [hookPostWorld]
      dsimp only
      rw [if_pos hch]
      simp [saveShellInteractSessionState, mapSet]
  · intro hnop
    have hnop2 : ¬(hookSubcommand tmuxCommand = "new-session" ∨
        hookSubcommand tmuxCommand = "kill-session" ∨
        hookSubcommand tmuxCommand = "kill-server") := hnop
    have h0 : hookReminder w now sessionID tmuxCommand = none := by
      rw [hookReminder, if_neg hnop2]
    constructor
    · show (match hookReminder w now sessionID tmuxCommand with
        | some r => if r = "" then toolOutput else toolOutput ++ r
        | none => toolOutput) = toolOutput
      rw [h0]
    · show hookReminder w now sessionID tmuxCommand = none
      exact h0

/-- Witness for `lifecycle_reminder_annotation`: creating `cea-build` in a
fresh world annotates the output with the post-mutation reminder. -/
theorem lifecycle_reminder_annotation_witness :
    jsStartsWith "ok" "Error:" = false ∧
      ((IsLifecycle (hookSubcommand "new-session -d -s cea-build") →
        ∃ st,
          (shellInteractHook
                { sessionStates := fun _ => none, storage := fun _ => none }
                3 "conv1" "new-session -d -s cea-build"
                "ok").2.sessionStates "conv1" = some st ∧
          (shellInteractHook
              { sessionStates := fun _ => none, storage := fun _ => none }
              3 "conv1" "new-session -d -s cea-build" "ok").1.output =
            "ok" ++ buildSessionReminderMessage st.tmuxSessions
              (if hookSubcommand "new-session -d -s cea-build" =
                  "new-session" ∧
                  isCeaSession (hookSessionName
                    "new-session -d -s cea-build") = true then
                hookSessionName "new-session -d -s cea-build"
              else none) ∧
          (hookSubcommand "new-session -d -s cea-build" = "new-session" ∧
              isCeaSession (hookSessionName
                "new-session -d -s cea-build") = true →
            (hookSessionName "new-session -d -s cea-build").getD "" ∈
              st.tmuxSessions) ∧
          ((getOrCreateState
              { sessionStates := fun _ => none, storage := fun _ => none }
              "conv1" 3).1.tmuxSessions.Nodup →
            hookSubcommand "new-session -d -s cea-build" = "kill-session" ∧
              isCeaSession (hookSessionName
                "new-session -d -s cea-build") = true →
            (hookSessionName "new-session -d -s cea-build").getD "" ∉
              st.tmuxSessions) ∧
          ((applySessionMutation
                (getOrCreateState
                  { sessionStates := fun _ => none,
                    storage := fun _ => none } "conv1" 3).1.tmuxSessions
                (hookSubcommand "new-session -d -s cea-build")
                (hookSessionName "new-session -d -s cea-build")).2 = true →
            (shellInteractHook
                  { sessionStates := fun _ => none,
                    storage := fun _ => none } 3 "conv1"
                  "new-session -d -s cea-build" "ok").2.storage
                st.sessionID =
              some { sessionID := st.sessionID,
                     tmuxSessions := st.tmuxSessions,
                     updatedAt := st.updatedAt })) ∧
      (¬IsLifecycle (hookSubcommand "new-session -d -s cea-build") →
        (shellInteractHook
            { sessionStates := fun _ => none, storage := fun _ => none }
            3 "conv1" "new-session -d -s cea-build" "ok").1.output = "ok" ∧
          (shellInteractHook
              { sessionStates := fun _ => none, storage := fun _ => none }
              3 "conv1" "new-session -d -s cea-build"
              "ok").1.sessionReminder = none)) :=
  ⟨by decide,
    lifecycle_reminder_annotation
      { sessionStates := fun _ => none, storage := fun _ => none } 3 "conv1"
      "new-session -d -s cea-build" "ok" (by decide)⟩

theorem foldl_jsSetAdd_of_disjoint (l : List String) :
    ∀ acc : List String, l.Nodup → (∀ a ∈ l, a ∉ acc) →
      List.foldl jsSetAdd acc l = acc ++ l := by
  induction l with
  | nil =>
    intro acc _ _
    simp
  | cons x xs ih =>
    intro acc hnd hdis
    rw [List.foldl_cons]
    have hx : x ∉ acc := hdis x (List.mem_cons_self x xs)
    rw [show jsSetAdd acc x = acc ++ [x] from if_neg hx]
    rw [ih (acc ++ [x]) (List.nodup_cons.mp hnd).2 ?_]
    · simp
    · intro a ha hmem
      rcases List.mem_append.mp hmem with h1 | h2
      · exact hdis a (List.mem_cons_of_mem x ha) h1
      · rw [List.mem_singleton.mp h2] at ha
        exact (List.nodup_cons.mp hnd).1 ha

theorem jsSetFromArray_of_nodup (l : List String) (h : l.Nodup) :
    jsSetFromArray l = l := by
  rw [jsSetFromArray, foldl_jsSetAdd_of_disjoint l [] h (by simp)]
  simp

/-- C8: saving a session state and loading it back for the same sessionID
returns a state with the identical sessionID and the identical
tracked-session set. -/
theorem session_state_roundtrip (storage : SessionStorage)
    (state : ShellInteractSessionState) (h : state.tmuxSessions.Nodup) :
    ∃ state2,
      loadShellInteractSessionState
          (saveShellInteractSessionState storage state) state.sessionID =
        some state2 ∧
      state2.sessionID = state.sessionID ∧
      state2.tmuxSessions = state.tmuxSessions := by
  have hload : loadShellInteractSessionState
      (saveShellInteractSessionState storage state) state.sessionID =
      some { sessionID := state.sessionID,
             tmuxSessions := jsSetFromArray state.tmuxSessions,
             updatedAt := state.updatedAt } := by
    simp [loadShellInteractSessionState, saveShellInteractSessionState,
      mapSet]
  exact ⟨_, hload, rfl, jsSetFromArray_of_nodup _ h⟩

/-- Witness for `session_state_roundtrip`: a two-session state over an
empty store round-trips. -/
theorem session_state_roundtrip_witness :
    (["cea-a", "cea-b"] : List String).Nodup ∧
      ∃ state2,
        loadShellInteractSessionState
            (saveShellInteractSessionState (fun _ => none)
              { sessionID := "conv1", tmuxSessions := ["cea-a", "cea-b"],
                updatedAt := 5 }) "conv1" = some state2 ∧
        state2.sessionID = "conv1" ∧
        state2.tmuxSessions = ["cea-a", "cea-b"] :=
  ⟨by decide,
    session_state_roundtrip (fun _ => none)
      { sessionID := "conv1", tmuxSessions := ["cea-a", "cea-b"],
        updatedAt := 5 } (by decide)⟩

/-- C5: a command whose (lowercased) leading subcommand is in the blocked
capture-and-pipe list is rejected by the keystroke entry point with the
message redirecting to shell_execute, and is never handed to the
multiplexer spawn; in particular `capture-pane -t cea-x -p` is rejected
whatever the cached multiplexer path is. -/
theorem blocked_subcommand_rejected (cachedTmuxPath : Option String)
    (tmuxCommand : String)
    (hblocked : BLOCKED_TMUX_SUBCOMMANDS.contains
      (jsToLowerCase ((tokenizeCommand tmuxCommand).headD "")) = true) :
    executeTmuxCommandGate cachedTmuxPath tmuxCommand =
        .rejected (blockedResult ((tokenizeCommand tmuxCommand).headD "")) ∧
      (∀ fullCommand, executeTmuxCommandGate cachedTmuxPath tmuxCommand ≠
        .spawn fullCommand) ∧
      executeTmuxCommandGate cachedTmuxPath "capture-pane -t cea-x -p" =
        .rejected (blockedResult "capture-pane") := by
  have hne : tokenizeCommand tmuxCommand ≠ [] := by
    intro h0
    rw [h0] at hblocked
    exact absurd hblocked (by decide)
  have hempty : (tokenizeCommand tmuxCommand).isEmpty = false := by
    cases h0 : tokenizeCommand tmuxCommand with
    | nil => exact absurd h0 hne
    | cons a t => rfl
  have heq : executeTmuxCommandGate cachedTmuxPath tmuxCommand =
      .rejected (blockedResult ((tokenizeCommand tmuxCommand).headD "")) := by
    simp only [executeTmuxCommandGate]
    rw [if_neg (by rw [hempty]; exact Bool.false_ne_true), if_pos hblocked]
  refine ⟨heq, ?_, rfl⟩
  intro fullCommand hcontra
  rw [heq] at hcontra
  exact TmuxDispatch.noConfusion hcontra

/-- Witness for `blocked_subcommand_rejected`: the claim instance
`capture-pane -t cea-x -p` with no cached path. -/
theorem blocked_subcommand_rejected_witness :
    BLOCKED_TMUX_SUBCOMMANDS.contains
        (jsToLowerCase ((tokenizeCommand
          "capture-pane -t cea-x -p").headD "")) = true ∧
      (executeTmuxCommandGate none "capture-pane -t cea-x -p" =
          .rejected (blockedResult
            ((tokenizeCommand "capture-pane -t cea-x -p").headD "")) ∧
        (∀ fullCommand, executeTmuxCommandGate none
            "capture-pane -t cea-x -p" ≠ .spawn fullCommand) ∧
        executeTmuxCommandGate none "capture-pane -t cea-x -p" =
          .rejected (blockedResult "capture-pane")) :=
  ⟨by decide,
    blocked_subcommand_rejected none "capture-pane -t cea-x -p" (by decide)⟩

theorem tokAux_eq_specTokAux (n : Nat) :
    ∀ chars : List Char, chars.length ≤ n →
      ∀ (current : List Char) (inQuote : Bool) (quoteChar : Option Char),
        (inQuote = true → quoteChar.isSome) →
        tokAux chars current inQuote quoteChar false =
          specTokAux chars current
            (if inQuote then quoteChar else none) := by
  induction n with
  | zero =>
    intro chars hlen current inQuote quoteChar _
    cases chars with
    | nil => cases inQuote <;> rfl
    | cons c rest => exact absurd hlen (by simp)
  | succ n ih =>
    intro chars hlen current inQuote quoteChar hinv
    cases chars with
    | nil => cases inQuote <;> rfl
    | cons c rest =>
      have hlen2 : rest.length ≤ n := by
        simp only [List.length_cons] at hlen
        omega
      by_cases hb : c = '\\'
      · subst hb
        cases rest with
        | nil => cases inQuote <;> rfl
        | cons d rest2 =>
          have hlen3 : rest2.length ≤ n := by
            simp only [List.length_cons] at hlen
            omega
          show tokAux rest2 (current ++ [d]) inQuote quoteChar false =
            specTokAux rest2 (current ++ [d])
              (if inQuote then quoteChar else none)
          exact ih rest2 hlen3 (current ++ [d]) inQuote quoteChar hinv
      · by_cases hq : (c = squoteChar ∨ c = dquoteChar) ∧ inQuote = false
        · obtain ⟨hq1, hq2⟩ := hq
          subst hq2
          show tokAux (c :: rest) current false quoteChar false =
            specTokAux (c :: rest) current none
          have lhs : tokAux (c :: rest) current false quoteChar false =
              tokAux rest current true (some c) false := by
            simp [tokAux, hb, hq1]
          have rhs : specTokAux (c :: rest) current none =
              specTokAux rest current (some c) := by
            rw [specTokAux.eq_def]
            simp [hb, hq1]
          rw [lhs, rhs]
          exact ih rest hlen2 current true (some c) (fun _ => rfl)
        · by_cases hc : some c = quoteChar ∧ inQuote = true
          · obtain ⟨hc1, hc2⟩ := hc
            subst hc2
            obtain ⟨q, hqc⟩ := Option.isSome_iff_exists.mp (hinv rfl)
            subst hqc
            have hcq : c = q := Option.some.inj hc1
            subst hcq
            show tokAux (c :: rest) current true (some c) false =
              specTokAux (c :: rest) current (some c)
            have lhs : tokAux (c :: rest) current true (some c) false =
                tokAux rest current false none false := by
              simp [tokAux, hb]
            have rhs : specTokAux (c :: rest) current (some c) =
                specTokAux rest current none := by
              rw [specTokAux.eq_def]
              simp [hb]
            rw [lhs, rhs]
            exact ih rest hlen2 current false none
              (fun h => absurd h (by simp))
          · by_cases hs : c = ' ' ∧ inQuote = false
            · obtain ⟨hs1, hs2⟩ := hs
              subst hs2
              subst hs1
              have hnq : ¬((' ' : Char) = squoteChar ∨
                  (' ' : Char) = dquoteChar) := fun hd => hq ⟨hd, rfl⟩
              show tokAux (' ' :: rest) current false quoteChar false =
                specTokAux (' ' :: rest) current none
              have lhs : tokAux (' ' :: rest) current false quoteChar false =
                  flushTok current ++
                    tokAux rest [] false quoteChar false := by
                simp [tokAux, hb, hnq]
              have rhs : specTokAux (' ' :: rest) current none =
                  flushTok current ++ specTokAux rest [] none := by
                rw [specTokAux.eq_def]
                simp [hb, hnq]
              rw [lhs, rhs]
              rw [ih rest hlen2 [] false quoteChar hinv]
              rfl
            · cases hiq : inQuote with
              | false =>
                subst hiq
                have hnq : ¬(c = squoteChar ∨ c = dquoteChar) :=
                  fun hd => hq ⟨hd, rfl⟩
                have hns : ¬(c = ' ') := fun hd => hs ⟨hd, rfl⟩
                show tokAux (c :: rest) current false quoteChar false =
                  specTokAux (c :: rest) current none
                have lhs : tokAux (c :: rest) current false quoteChar false =
                    tokAux rest (current ++ [c]) false quoteChar false := by
                  simp [tokAux, hb, hnq, hns]
                have rhs : specTokAux (c :: rest) current none =
                    specTokAux rest (current ++ [c]) none := by
                  rw [specTokAux.eq_def]
                  simp [hb, hnq, hns]
                rw [lhs, rhs]
                exact ih rest hlen2 (current ++ [c]) false quoteChar hinv
              | true =>
                subst hiq
                obtain ⟨q, hqc⟩ := Option.isSome_iff_exists.mp (hinv rfl)
                subst hqc
                have hcq : ¬(c = q) := fun he => hc ⟨by rw [he], rfl⟩
                show tokAux (c :: rest) current true (some q) false =
                  specTokAux (c :: rest) current (some q)
                have lhs : tokAux (c :: rest) current true (some q) false =
                    tokAux rest (current ++ [c]) true (some q) false := by
                  simp [tokAux, hb, hcq]
                have rhs : specTokAux (c :: rest) current (some q) =
                    specTokAux rest (current ++ [c]) (some q) := by
                  rw [specTokAux.eq_def]
                  simp [hb, hcq]
                rw [lhs, rhs]
                exact ih rest hlen2 (current ++ [c]) true (some q)
                  (fun _ => rfl)

/-- C7 counterexample: a tab is whitespace but does not separate tokens —
`a<TAB>b` tokenizes as the single token `a<TAB>b`, not as `a`, `b`. -/
theorem tokenizer_whitespace_counterexample :
    (Char.ofNat 9).isWhitespace = true ∧
      tokenizeCommand ⟨['a', Char.ofNat 9, 'b']⟩ =
        [⟨['a', Char.ofNat 9, 'b']⟩] ∧
      tokenizeCommand ⟨['a', Char.ofNat 9, 'b']⟩ ≠ ["a", "b"] := by
  refine ⟨by decide, by decide, by decide⟩

/-- C7 amended: the tokenizer is the pure function given by the claim
rules with token separation on runs of unquoted spaces (U+0020) rather
than arbitrary whitespace: quotes group, a backslash escapes the next
character and is dropped, a matching unescaped quote closes the group, an
unterminated quote swallows the remainder into the final token; the
claim instance with the quoted `echo hi` and the escaped semicolon holds. -/
theorem tokenizer_spec_equiv (cmd : String) :
    tokenizeCommand cmd = specTokenize cmd ∧
      tokenizeCommand
          ("new-session -d -s cea-a \\; send-keys -t cea-a " ++ sqStr ++
            "echo hi" ++ sqStr ++ " Enter") =
        ["new-session", "-d", "-s", "cea-a", ";", "send-keys", "-t",
          "cea-a", "echo hi", "Enter"] :=
  ⟨tokAux_eq_specTokAux cmd.data.length cmd.data le_rfl [] false none
      (fun h => absurd h (by simp)),
    by decide⟩
